import Mathlib

/-!
# Verification of the Bronze→Silver→Gold ETL pipeline (`src/data/etl.py`)

This file gives a shallow embedding, in Lean 4, of the transformation core of
the repository's ETL module: the stat-value parser (`_parse_stat_value`), the
match-record cleaner (`_clean_match_data` with `_clean_player_list`), the
flattener (`_flatten_match_data`), the team extractor
(`_transform_flat_data_for_team`) and the aggregation step of
`create_global_aggregates` (concat / drop-duplicates / sort).

Modelling conventions:
* Python strings are Lean `String`s; every Python string operation the code
  uses (`strip`, `lower`, `replace`, `endswith`, `isdigit`, `split`,
  slicing, the two regexes) is re-implemented here over `List Char` so that
  it evaluates inside the kernel.  ASCII data is assumed (the scraped data
  is ASCII); Python's extra Unicode whitespace/digit classes are not
  modelled.
* Python floats are modelled exactly: `FloatV` is either a rational number
  or one of the special values `inf`, `-inf`, `nan`.  All numeric literals
  appearing in the claims are exactly representable, so no binary-rounding
  artefacts are relevant to any statement proved here.
* Heterogeneous Python values (JSON scalars) are `PyVal`; raw statistic
  cells are `Option String` (the scraped statistics tables hold strings or
  null); fallible Python code (uncaught exceptions) is embedded in
  `Except String`.
* Python `dict`s are insertion-ordered association lists; assignment to an
  existing key updates the value in place, assignment to a new key appends
  (`dinsert`), and `.get` returns the first (unique) binding.
-/

namespace ETL

/-- Exact model of a Python float value: a rational, or one of the special
values `inf`, `-inf`, `nan`. -/
inductive FloatV where
  | fin (q : ℚ)
  | inf
  | ninf
  | nan
deriving DecidableEq, Repr

/-- A scalar Python/JSON value as it occurs in match documents and flat
rows: `None`, an `int`, a `float`, or a `str`. -/
inductive PyVal where
  | null
  | int (n : Int)
  | float (f : FloatV)
  | str (s : String)
deriving DecidableEq, Repr

/-- The result of `_parse_stat_value`: `None`, a Python `int`, a Python
`float`, the original string (opaque), or a `{"value": .., "percent": ..}`
dictionary. -/
inductive StatValue where
  | null
  | vInt (n : Int)
  | vFloat (f : FloatV)
  | vStr (s : String)
  | vp (value percent : FloatV)
deriving DecidableEq, Repr

/-- Decidable equality for `Except`, used to `decide` concrete facts about
the embedded fallible functions. -/
instance instDecEqExcept {ε α : Type} [DecidableEq ε] [DecidableEq α] :
    DecidableEq (Except ε α) := fun a b =>
  match a, b with
  | .ok x, .ok y =>
      if h : x = y then isTrue (by rw [h]) else isFalse (by intro hc; cases hc; exact h rfl)
  | .error x, .error y =>
      if h : x = y then isTrue (by rw [h]) else isFalse (by intro hc; cases hc; exact h rfl)
  | .ok _, .error _ => isFalse (by intro hc; cases hc)
  | .error _, .ok _ => isFalse (by intro hc; cases hc)

/-! ## Python string primitives (ASCII model) -/

/-- Python `str.strip()` whitespace class (ASCII part): space, tab, newline,
carriage return, vertical tab, form feed. -/
def isPySpace (c : Char) : Bool :=
  c = ' ' || c = '\t' || c = '\n' || c = '\r' || c = '\x0b' || c = '\x0c'

/-- Strip characters satisfying `p` from both ends of a character list
(Python `str.strip(chars)`). -/
def stripBoth (p : Char → Bool) (cs : List Char) : List Char :=
  ((cs.dropWhile p).reverse.dropWhile p).reverse

/-- Python `str.strip()` (ASCII whitespace). -/
def pyStrip (s : String) : String := ⟨stripBoth isPySpace s.data⟩

/-- Python `str.rstrip(chars)` for a single character class. -/
def rstripC (p : Char → Bool) (cs : List Char) : List Char :=
  (cs.reverse.dropWhile p).reverse

/-- ASCII lower-casing of one character (Python `str.lower` restricted to
ASCII input). -/
def charLower (c : Char) : Char :=
  if 'A' ≤ c ∧ c ≤ 'Z' then Char.ofNat (c.toNat + 32) else c

/-- Python `str.lower()` (ASCII model). -/
def sLower (s : String) : String := ⟨s.data.map charLower⟩

/-- Decimal value of a list of ASCII digits. -/
def digitsToNat (cs : List Char) : Nat :=
  cs.foldl (fun n c => 10 * n + (c.toNat - 48)) 0

/-- Python `str.isdigit()` (ASCII model): nonempty and all decimal digits. -/
def isDigitStr (cs : List Char) : Bool :=
  !cs.isEmpty && cs.all Char.isDigit

/-- A nonempty run of decimal digits in which single underscores may appear
between two digits (the digit-group syntax of Python numeric literals
accepted by `int()` / `float()`). -/
def digitsU : List Char → Bool
  | [] => false
  | [c] => c.isDigit
  | c :: '_' :: cs => c.isDigit && digitsU cs
  | c :: cs => c.isDigit && digitsU cs

/-- Value of a digit group once underscores are removed. -/
def digitsUVal (cs : List Char) : Nat :=
  digitsToNat (cs.filter (fun c => c ≠ '_'))

/-- Model of Python `int(s)` for `str` arguments: optional surrounding
whitespace, optional sign, then a base-10 digit group. Returns `none` where
Python raises `ValueError`. -/
def pyInt? (s : String) : Option Int :=
  match stripBoth isPySpace s.data with
  | '+' :: rest => if digitsU rest then some (digitsUVal rest) else none
  | '-' :: rest => if digitsU rest then some (-(digitsUVal rest : Int)) else none
  | rest => if digitsU rest then some (digitsUVal rest) else none

/-- Split a character list at the first occurrence of `'e'`/`'E'`
(exponent marker). -/
def splitExp (cs : List Char) : List Char × Option (List Char) :=
  match cs.span (fun c => !(c = 'e' || c = 'E')) with
  | (m, []) => (m, none)
  | (m, _ :: e) => (m, some e)

/-- Parse the exponent part of a float literal: optional sign then a digit
group. -/
def expVal? (cs : List Char) : Option Int :=
  match cs with
  | '+' :: rest => if digitsU rest then some (digitsUVal rest) else none
  | '-' :: rest => if digitsU rest then some (-(digitsUVal rest : Int)) else none
  | rest => if digitsU rest then some (digitsUVal rest) else none

/-- The exact rational value of the decimal numeral with digits worth `n`
and `k` digits after the decimal point. -/
def mkDec (n k : Nat) : ℚ := (n : ℚ) / 10 ^ k

/-- Parse the mantissa (no sign, no exponent) of a float literal: digits
with an optional decimal point; at least one digit overall. Returns the
digit value and the number of fractional digits (the exact value is
`mkDec`). -/
def mantissa? (cs : List Char) : Option (Nat × Nat) :=
  match cs.span (fun c => c ≠ '.') with
  | (ip, []) =>
      if digitsU ip then some (digitsUVal ip, 0) else none
  | (ip, _ :: fp) =>
      if (ip.isEmpty || digitsU ip) && (fp.isEmpty || digitsU fp)
          && !(ip.isEmpty && fp.isEmpty) && !fp.contains '.' then
        some (digitsUVal (ip ++ fp), (fp.filter (fun c => c ≠ '_')).length)
      else none

/-- Unsigned body of Python `float(s)`: `inf`/`infinity`/`nan`
(case-insensitive) or a decimal literal with optional exponent. -/
def pyFloatBody? (cs : List Char) : Option FloatV :=
  let l := cs.map charLower
  if l = "inf".data || l = "infinity".data then some .inf
  else if l = "nan".data then some .nan
  else
    match splitExp cs with
    | (m, none) => (mantissa? m).map fun p => .fin (mkDec p.1 p.2)
    | (m, some e) =>
        match mantissa? m, expVal? e with
        | some p, some x => some (.fin (mkDec p.1 p.2 * 10 ^ (x : Int)))
        | _, _ => none

/-- Model of Python `float(s)` for `str` arguments: optional surrounding
whitespace, optional sign, then the float body. Returns `none` where Python
raises `ValueError`. -/
def pyFloat? (s : String) : Option FloatV :=
  match stripBoth isPySpace s.data with
  | '+' :: rest => pyFloatBody? rest
  | '-' :: rest =>
      (pyFloatBody? rest).map fun f =>
        match f with
        | .fin q => .fin (-q)
        | .inf => .ninf
        | .ninf => .inf
        | .nan => .nan
  | rest => pyFloatBody? rest

/-! ## The two regular expressions of `etl.py` -/

/-- Character class `[\d\.]` of the composite-value regex. -/
def isDotDigit (c : Char) : Bool := c.isDigit || c = '.'

/-- Model of `re.match(r"([\d\.]+)\s*\(([\d\.]+)%\)", s)`: because the
character classes `[\d\.]`, `\s`, and the literals `(`, `%`, `)` are
pairwise disjoint, the backtracking search succeeds iff the maximal-munch
scan below succeeds, and the captured groups are the maximal runs.
`re.match` anchors at the start only, so trailing characters are allowed. -/
def parenMatch (s : String) : Option (String × String) :=
  let cs := s.data
  let g1 := cs.takeWhile isDotDigit
  if g1.isEmpty then none
  else
    match (cs.dropWhile isDotDigit).dropWhile isPySpace with
    | '(' :: r3 =>
        let g2 := r3.takeWhile isDotDigit
        if g2.isEmpty then none
        else
          match r3.dropWhile isDotDigit with
          | '%' :: ')' :: _ => some (⟨g1⟩, ⟨g2⟩)
          | _ => none
    | _ => none

/-- Length of a match of `\d+(?:\.\d+)?%` at the start of `cs`, if any.
The integer digit run is maximal (shorter runs leave a digit where `.`/`%`
is required); if a fractional part `.\d+` is present the `%` must follow
its maximal digit run (shorter runs leave a digit where `%` is required). -/
def pctMatchLen (cs : List Char) : Option Nat :=
  let d := (cs.takeWhile Char.isDigit).length
  if d = 0 then none
  else
    match cs.drop d with
    | '%' :: _ => some (d + 1)
    | '.' :: rest2 =>
        let m := (rest2.takeWhile Char.isDigit).length
        if m = 0 then none
        else
          match rest2.drop m with
          | '%' :: _ => some (d + 1 + m + 1)
          | _ => none
    | _ => none

/-- Scanner for `findPcts`: structural recursion on a fuel argument (every
step consumes at least one character, so `cs.length` fuel suffices). -/
def findPctsAux : Nat → List Char → List String
  | 0, _ => []
  | _, [] => []
  | fuel + 1, c :: rest =>
      match pctMatchLen (c :: rest) with
      | some L => ⟨(c :: rest).take L⟩ :: findPctsAux fuel (rest.drop (L - 1))
      | none => findPctsAux fuel rest

/-- Model of `re.findall(r"(\d+(?:\.\d+)?%)", s)`: scan left to right,
at each position try to match; on success emit the matched text and resume
after it, otherwise advance one character. -/
def findPcts (cs : List Char) : List String := findPctsAux cs.length cs

/-! ## `_parse_stat_value` -/

/-- Branches of `_parse_stat_value` from the `isdigit` test on
(`int` / trailing `float` / opaque-string fallback). -/
def parseRest3 (vs : String) : StatValue :=
  if isDigitStr vs.data then .vInt (digitsToNat vs.data)
  else
    match pyFloat? vs with
    | some f => .vFloat f
    | none => .vStr vs

/-- Branches of `_parse_stat_value` from the `%`-suffix test on: on a
trailing `%`, try `float` of the string with all trailing `%` removed
(`rstrip("%")`), falling through on failure. -/
def parseRest2 (vs : String) : StatValue :=
  if vs.data.getLast? = some '%' then
    match pyFloat? ⟨rstripC (fun c => c = '%') vs.data⟩ with
    | some f => .vFloat f
    | none => parseRest3 vs
  else parseRest3 vs

/-- Remove every occurrence of the two-character pattern `"km"`, scanning
left to right (Python `str.replace("km", "")`). -/
def removeKm : List Char → List Char
  | [] => []
  | 'k' :: 'm' :: cs => removeKm cs
  | c :: cs => c :: removeKm cs

/-- Branches of `_parse_stat_value` from the `km`-suffix test on: if the
lower-cased string ends with `"km"`, try `float` of the lower-cased string
with ALL occurrences of `"km"` removed (`.lower().replace("km", "")`),
falling through on `ValueError`. -/
def parseRest1 (vs : String) : StatValue :=
  let lv := (sLower vs).data
  if ("km".data.isSuffixOf lv) then
    match pyFloat? ⟨removeKm lv⟩ with
    | some f => .vFloat f
    | none => parseRest2 vs
  else parseRest2 vs

/-- `_parse_stat_value` on a non-`None` value whose `str()` form is `raw`.
The composite branch runs only when both `(` and `)` occur somewhere; when
its regex matches, the two captured groups are passed to `float()` with NO
exception handler, so an unparseable group (e.g. `"1.2.3"`) raises
`ValueError` — embedded as `.error`. All later branches are total. -/
def parseStr (raw : String) : Except String StatValue :=
  let vs := pyStrip raw
  match (if vs.data.contains '(' && vs.data.contains ')' then parenMatch vs else none) with
  | some (g1, g2) =>
      match pyFloat? g1, pyFloat? g2 with
      | some f1, some f2 => .ok (.vp f1 f2)
      | _, _ => .error "ValueError"
  | none => .ok (parseRest1 vs)

/-- `_parse_stat_value` on a raw statistic cell (`None` or a string). -/
def parseE : Option String → Except String StatValue
  | none => .ok .null
  | some raw => parseStr raw

/-! ## Python dictionaries (insertion-ordered association lists) -/

/-- `d.get(k)`: the first binding of `k`, if any. -/
def dget {β : Type} (d : List (String × β)) (k : String) : Option β :=
  (d.find? (fun e => e.1 = k)).map Prod.snd

/-- `d.get(k, dflt)`. -/
def dgetD {β : Type} (d : List (String × β)) (k : String) (dflt : β) : β :=
  (dget d k).getD dflt

/-- `d[k] = v`: update the binding in place if `k` is present, else append
(CPython dict semantics: insertion order, updates keep position). -/
def dinsert {β : Type} (k : String) (v : β) : List (String × β) → List (String × β)
  | [] => [(k, v)]
  | e :: d => if e.1 = k then (k, v) :: d else e :: dinsert k v d

/-! ## PyVal helpers -/

/-- Python truthiness of a scalar value. -/
def pyTruthy : PyVal → Bool
  | .null => false
  | .int n => n ≠ 0
  | .float (.fin q) => q ≠ 0
  | .float _ => true
  | .str s => s ≠ ""

/-- Python `a or b` on scalar values. -/
def pyOr (a b : PyVal) : PyVal := if pyTruthy a then a else b

/-- Truncation toward zero, the conversion `int(float)` performs on finite
floats. -/
def ratTrunc (q : ℚ) : Int := q.num.tdiv q.den

/-! ## `_clean_match_data`: match-info cleaning (trim + score coercion) -/

/-- The string-trimming loop over `match_info`: every `str`-typed value is
replaced by its stripped form, in place. -/
def stripVals (d : List (String × PyVal)) : List (String × PyVal) :=
  d.map fun e => (e.1, match e.2 with | .str s => .str (pyStrip s) | v => v)

/-- `int(val)` for a score value that is present, non-`None` and not an
`int`, under the handler `except (ValueError, TypeError)`: a failed string
parse or a `nan` gives the fallback `0`; `int(±inf)` raises
`OverflowError`, which that handler does NOT catch, so it propagates. -/
def coerceScoreV : PyVal → Except String PyVal
  | .str s => .ok (.int ((pyInt? s).getD 0))
  | .float (.fin q) => .ok (.int (ratTrunc q))
  | .float .nan => .ok (.int 0)
  | .float .inf => .error "OverflowError"
  | .float .ninf => .error "OverflowError"
  | v => .ok v

/-- The score-coercion step for one of `home_score` / `away_score`:
missing or `None` or already-`int` values are left untouched. -/
def coerceScoreKey (k : String) (d : List (String × PyVal)) :
    Except String (List (String × PyVal)) :=
  match dget d k with
  | none => .ok d
  | some .null => .ok d
  | some (.int _) => .ok d
  | some v => (coerceScoreV v).map (fun w => dinsert k w d)

/-- The whole `match_info` cleaning step of `_clean_match_data`. -/
def cleanInfoE (d : List (String × PyVal)) : Except String (List (String × PyVal)) := do
  let d1 := stripVals d
  let d2 ← coerceScoreKey "home_score" d1
  coerceScoreKey "away_score" d2

/-! ## `_clean_match_data`: statistics repair and parsing -/

/-- Truthiness test plus `"%" in str(...)` for the away cell used by the
Possession repair. -/
def awayPctOk : Option String → Bool
  | some s => s ≠ "" && s.data.contains '%'
  | none => false

/-- Python `f"{x:.1f}"`: round-half-even to one decimal place.  `FloatV`
carries exact rationals, so the rounding is performed on the exact decimal
value (for the concrete data in this development the two agree with the
binary-float behaviour). -/
def rhe (x : ℚ) : Int :=
  let f := ⌊x⌋
  let r := x - f
  if r < 1/2 then f else if 1/2 < r then f + 1 else if f % 2 = 0 then f else f + 1

/-- `f"{x:.1f}"` for a nonnegative rational. -/
def fmt1abs (q : ℚ) : String :=
  let m := (rhe (10 * q)).toNat
  toString (m / 10) ++ "." ++ toString (m % 10)

/-- `f"{x:.1f}"` on a float value. -/
def fmt1 : FloatV → String
  | .fin q => if q < 0 then "-" ++ fmt1abs (-q) else fmt1abs q
  | .inf => "inf"
  | .ninf => "-inf"
  | .nan => "nan"

/-- `100 - x` on a float value (left operand finite). -/
def fsub100 : FloatV → FloatV
  | .fin q => .fin (100 - q)
  | .inf => .ninf
  | .ninf => .inf
  | .nan => .nan

/-- The Possession-repair heuristic of `_clean_match_data`, lines 306–335:
given one merged raw statistic entry, returns the (possibly renamed) key
and the (possibly rewritten) home/away cells that are then passed to
`_parse_stat_value`. -/
def repairCell (statName : String) (home away : Option String) :
    String × Option String × Option String :=
  let cleanName := pyStrip statName
  if (cleanName.data.contains '%' && cleanName.data.any Char.isDigit)
      && (home = some "Possession" || away = some "Possession") then
    let ms := findPcts statName.data
    let newHome :=
      if ms.length = 2 then
        if awayPctOk away then
          match pyFloat? ⟨stripBoth (fun c => c = '%') ((away.getD "").data)⟩ with
          | some f => some (fmt1 (fsub100 f) ++ "%")
          | none => home
        else home
      else home
    ("Possession", newHome, away)
  else (cleanName, home, away)

/-- Cleaning of one merged raw statistic entry: Possession repair, then
both cells go through `_parse_stat_value` (which can raise). -/
def cleanStatEntry (statName : String) (home away : Option String) :
    Except String (String × StatValue × StatValue) := do
  let (n, h, a) := repairCell statName home away
  let hv ← parseE h
  let av ← parseE a
  return (n, hv, av)

/-! ## Match documents -/

/-- A lineup entry.  The scraped player dictionaries carry string-typed
`name`/`number`/`position` fields; a missing `name` reads as `""`
(the code's `.get("name", "")`). -/
structure Player where
  name : String := ""
  number : Option String := none
  position : Option String := none
deriving DecidableEq, Repr

/-- One side of `lineups`; `starting_xi` / `substitutes` may be absent
(the code reads them with `.get(.., [])` and then assigns them). -/
structure SideLineup where
  starting_xi : Option (List Player) := none
  substitutes : Option (List Player) := none
deriving DecidableEq, Repr

/-- The `lineups` section; either side may be absent. -/
structure Lineups where
  home : Option SideLineup := none
  away : Option SideLineup := none
deriving DecidableEq, Repr

/-- A value of the raw statistics mapping: either not a dictionary (such
entries are skipped by the cleaner) or a `{home: .., away: ..}` table whose
cells are raw scraped strings or null. -/
inductive RawStat where
  | prim (v : PyVal)
  | table (home away : Option String)
deriving DecidableEq, Repr

/-- A category inside `detailed_statistics`: non-dictionary categories are
skipped, dictionary ones are overlaid onto the merged mapping. -/
inductive DetCat where
  | prim (v : PyVal)
  | table (entries : List (String × RawStat))
deriving DecidableEq, Repr

/-- A raw match document (the subset of keys `_clean_match_data`,
`_flatten_match_data` read; each section optional). -/
structure RawDoc where
  match_id : PyVal := .null
  season : PyVal := .null
  matchweek : PyVal := .null
  match_info : Option (List (String × PyVal)) := none
  statistics : Option (List (String × RawStat)) := none
  detailed_statistics : Option (List (String × DetCat)) := none
  lineups : Option Lineups := none
deriving DecidableEq, Repr

/-- A cleaned match document: same shape, but `statistics` is rebuilt as a
mapping to parsed `{home, away}` pairs (and is always a dictionary). -/
structure CleanedDoc where
  match_id : PyVal := .null
  season : PyVal := .null
  matchweek : PyVal := .null
  match_info : Option (List (String × PyVal)) := none
  statistics : List (String × StatValue × StatValue) := []
  detailed_statistics : Option (List (String × DetCat)) := none
  lineups : Option Lineups := none
deriving DecidableEq, Repr

/-! ## `_clean_player_list` -/

/-- Python `str.split('\n')` (always returns at least one part). -/
def splitNL : List Char → List (List Char)
  | [] => [[]]
  | '\n' :: cs => [] :: splitNL cs
  | c :: cs =>
      match splitNL cs with
      | g :: gs => (c :: g) :: gs
      | [] => [[c]]

/-- Substitute entry cleaning: the raw name may pack
`"Name\nNumber\nPosition"`. -/
def cleanPlayerSub (p : Player) : Player :=
  match (splitNL p.name.data).map (fun g => (⟨g⟩ : String)) with
  | [] => p
  | p0 :: rest =>
    let q1 := { p with name := pyStrip p0 }
    match rest with
    | [] => q1
    | p1 :: rest2 =>
      let q2 := if isDigitStr p1.data then { q1 with number := some (pyStrip p1) } else q1
      match rest2 with
      | [] => q2
      | p2 :: _ => { q2 with position := some (pyStrip p2) }

/-- Starter entry cleaning: strip a leading jersey-number prefix
(`"40Bizot"` → `"Bizot"`) when the `number` field matches it. -/
def cleanPlayerStart (p : Player) : Player :=
  match p.number with
  | some ns =>
      if ns ≠ "" && ns.data.isPrefixOf p.name.data then
        { p with name := pyStrip ⟨p.name.data.drop ns.data.length⟩ }
      else p
  | none => p

/-- `_clean_player_list`. -/
def cleanPlayers (isSub : Bool) (ps : List Player) : List Player :=
  ps.map (if isSub then cleanPlayerSub else cleanPlayerStart)

/-- The lineup-cleaning step: both lists of a present side are rebuilt and
assigned (missing lists default to `[]` and become present). -/
def cleanSide (sl : SideLineup) : SideLineup :=
  { starting_xi := some (cleanPlayers false (sl.starting_xi.getD []))
    substitutes := some (cleanPlayers true (sl.substitutes.getD [])) }

/-- Lineups cleaning over both sides. -/
def cleanLineups (l : Lineups) : Lineups :=
  { home := l.home.map cleanSide, away := l.away.map cleanSide }

/-! ## `_clean_match_data` assembled -/

/-- Build the merged raw-statistics mapping: start from `statistics`, then
overlay every dictionary category of `detailed_statistics` in order
(`dict.update` semantics). -/
def mergeStats (d : RawDoc) : List (String × RawStat) :=
  let r1 := (d.statistics.getD []).foldl (fun acc e => dinsert e.1 e.2 acc) []
  (d.detailed_statistics.getD []).foldl
    (fun acc c =>
      match c.2 with
      | .table es => es.foldl (fun a e => dinsert e.1 e.2 a) acc
      | .prim _ => acc) r1

/-- Clean every merged statistic entry (skipping non-dictionary values),
accumulating `cleaned_stats[name] = {home: .., away: ..}`. -/
def cleanStats (es : List (String × RawStat)) :
    Except String (List (String × StatValue × StatValue)) :=
  es.foldlM
    (fun acc e =>
      match e.2 with
      | .prim _ => .ok acc
      | .table h a => do
          let (n, hv, av) ← cleanStatEntry e.1 h a
          return dinsert n (hv, av) acc) []

/-- `_clean_match_data`, together with the post-call state of the CALLER's
document.  The source does `clean = data.copy()` — a SHALLOW copy — and
then mutates the shared nested `match_info` dict (trim + score coercion)
and the shared `lineups` side dicts (list reassignment) in place, while
`clean["statistics"]` only rebinds the key of the copy.  The first
component is the returned cleaned document, the second is what the input
document looks like after the call. -/
def cleanFull (d : RawDoc) : Except String (CleanedDoc × RawDoc) := do
  let info' ← match d.match_info with
    | none => pure none
    | some i => (cleanInfoE i).map some
  let stats ← cleanStats (mergeStats d)
  let lins := d.lineups.map cleanLineups
  let c : CleanedDoc :=
    { match_id := d.match_id, season := d.season, matchweek := d.matchweek,
      match_info := info', statistics := stats,
      detailed_statistics := d.detailed_statistics, lineups := lins }
  let post : RawDoc := { d with match_info := info', lineups := lins }
  return (c, post)

/-- `_clean_match_data` as the caller sees the return value. -/
def cleanDoc (d : RawDoc) : Except String CleanedDoc := (cleanFull d).map Prod.fst

/-! ## `_flatten_match_data` -/

/-- `<slug>`: stat name lower-cased, spaces→underscores, parentheses and
`%` removed, leading/trailing underscores stripped — in source order
`.lower().replace(" ", "_").replace("(", "").replace(")", "").replace("%", "").strip("_")`. -/
def slugName (s : String) : String :=
  ⟨stripBoth (fun c => c = '_')
    (((s.data.map charLower).map (fun c => if c = ' ' then '_' else c)).filter
      (fun c => !(c = '(' || c = ')' || c = '%')))⟩

/-- Emit the column(s) of one side of one statistic: a
`{"value", "percent"}` pair produces `<side><slug>` and
`<side><slug>_pct`; any other parsed value is stored as-is in the single
column `<side><slug>`. -/
def emitSide (pre cn : String) (v : StatValue) (d : List (String × PyVal)) :
    List (String × PyVal) :=
  match v with
  | .vp x p => dinsert (pre ++ cn ++ "_pct") (.float p) (dinsert (pre ++ cn) (.float x) d)
  | .null => dinsert (pre ++ cn) .null d
  | .vInt n => dinsert (pre ++ cn) (.int n) d
  | .vFloat f => dinsert (pre ++ cn) (.float f) d
  | .vStr s => dinsert (pre ++ cn) (.str s) d

/-- The fixed meta columns of `_flatten_match_data`'s `flat` dictionary
(`info = data.get("match_info", {})`, `info.get` reads `None` for absent
keys, `date` is `date_time or date`). -/
def baseRow (c : CleanedDoc) : List (String × PyVal) :=
  let info := c.match_info.getD []
  let ig := fun k => dgetD info k .null
  [("match_id", c.match_id), ("season", c.season), ("matchweek", c.matchweek),
   ("date", pyOr (ig "date_time") (ig "date")), ("venue", ig "venue"),
   ("referee", ig "referee"), ("home_team", ig "home_team"),
   ("away_team", ig "away_team"), ("home_score", ig "home_score"),
   ("away_score", ig "away_score")]

/-- The single column value emitted for one side of a statistic whose
parsed value is NOT a value+percent pair: the parsed value stored as-is. -/
def mainPy : StatValue → PyVal
  | .vp x _ => .float x
  | .null => .null
  | .vInt n => .int n
  | .vFloat f => .float f
  | .vStr s => .str s

/-- `_flatten_match_data`: fixed meta columns, then for every cleaned
statistic the home columns followed by the away columns. -/
def flatten (c : CleanedDoc) : List (String × PyVal) :=
  c.statistics.foldl
    (fun d e => emitSide "away_" (slugName e.1) e.2.2 (emitSide "home_" (slugName e.1) e.2.1 d))
    (baseRow c)

/-! ## `_transform_flat_data_for_team` -/

/-- The fixed keys of the base record built before the dynamic stat copy. -/
def baseKeys : List String :=
  ["match_id", "season", "matchweek", "date", "venue", "is_home", "team",
   "opponent", "result", "goals_scored", "goals_conceded"]

/-- The team-perspective record (Gold row). -/
structure TeamRecord where
  match_id : PyVal
  season : PyVal
  matchweek : PyVal
  date : PyVal
  venue : PyVal
  is_home : Bool
  team : PyVal
  opponent : PyVal
  result : String
  goals_scored : PyVal
  goals_conceded : PyVal
  stats : List (String × PyVal)
deriving DecidableEq, Repr

/-- `row.get(k)` on a flat row (absent key reads as `None`). -/
def rowGet (row : List (String × PyVal)) (k : String) : PyVal := dgetD row k .null

/-- `x in team_aliases`: Python list membership by `==`; only a string can
equal a string alias, and comparison is exact and case-sensitive. -/
def aliasMem (v : PyVal) (aliases : List String) : Bool :=
  match v with
  | .str s => aliases.contains s
  | _ => false

/-- `int(x)` under the bare `except:` of the result computation: every
failure (None, bad string, inf, nan) is caught. -/
def toIntR : PyVal → Option Int
  | .int n => some n
  | .str s => pyInt? s
  | .float (.fin q) => some (ratTrunc q)
  | .float _ => none
  | .null => none

/-- The W/D/L computation: `result` starts `"D"`; if both scores convert
with `int()`, a strictly greater team score gives `"W"`, strictly less
`"L"`; any exception leaves `"D"`. -/
def resultOf (ts os : PyVal) : String :=
  match toIntR ts, toIntR os with
  | some a, some b => if b < a then "W" else if a < b then "L" else "D"
  | _, _ => "D"

/-- The dynamic stat copy: every row key starting with the side prefix is
re-keyed without the prefix, unless that key is already present in the
record (base keys are never overwritten; first prefixed occurrence wins). -/
def collectStats (pre : String) (row : List (String × PyVal)) : List (String × PyVal) :=
  row.foldl
    (fun acc e =>
      if pre.data.isPrefixOf e.1.data then
        let ck : String := ⟨e.1.data.drop pre.data.length⟩
        if baseKeys.contains ck || (acc.map Prod.fst).contains ck then acc
        else acc ++ [(ck, e.2)]
      else acc) []

/-- Build the record for the chosen side. -/
def mkRec (row : List (String × PyVal)) (isHome : Bool) (team opponent ts os : PyVal) :
    TeamRecord :=
  { match_id := rowGet row "match_id", season := rowGet row "season",
    matchweek := rowGet row "matchweek", date := rowGet row "date",
    venue := rowGet row "venue", is_home := isHome, team := team,
    opponent := opponent, result := resultOf ts os, goals_scored := ts,
    goals_conceded := os,
    stats := collectStats (if isHome then "home_" else "away_") row }

/-- `_transform_flat_data_for_team`: pick the home side if `home_team` is
an alias, else the away side if `away_team` is, else no record. -/
def extract (row : List (String × PyVal)) (aliases : List String) : Option TeamRecord :=
  let home := rowGet row "home_team"
  let away := rowGet row "away_team"
  if aliasMem home aliases then
    some (mkRec row true home away (rowGet row "home_score") (rowGet row "away_score"))
  else if aliasMem away aliases then
    some (mkRec row false away home (rowGet row "away_score") (rowGet row "home_score"))
  else none

/-! ## `create_global_aggregates`: concat / dedup / sort -/

/-- One master-dataset row: the dedup key and the two sort keys are typed;
everything else is opaque payload. -/
structure AggRow where
  match_id : Int
  season : String
  matchweek : Int
  rest : List (String × PyVal) := []
deriving DecidableEq, Repr

/-- `drop_duplicates(subset=["match_id"], keep="last")`: a row survives iff
no later row has the same `match_id`; surviving rows keep their order. -/
def dedupLast : List AggRow → List AggRow
  | [] => []
  | r :: rest =>
      if rest.any (fun s => s.match_id = r.match_id) then dedupLast rest
      else r :: dedupLast rest

/-- The lexicographic `(season, matchweek)` order of
`sort_values(by=["season", "matchweek"])` (pandas compares object-dtype
season strings with Python string order, i.e. code-point lexicographic). -/
def lexLe (a b : AggRow) : Bool :=
  a.season < b.season || (a.season = b.season && a.matchweek ≤ b.matchweek)

/-- The aggregation core of `create_global_aggregates`: concatenate (the
input list), deduplicate on `match_id` keeping the last occurrence, then
sort ascending by `(season, matchweek)`.  pandas `sort_values` with more
than one `by` column uses `np.lexsort`, a stable sort; it is modelled by
the stable `List.mergeSort`.  The typed row always carries both sort keys,
so the code's "when both columns are present" guard is always taken. -/
def aggregate (rows : List AggRow) : List AggRow := (dedupLast rows).mergeSort lexLe

/-!
# Theorems

Helper lemmas first, then one theorem per claim (with witnesses and
counterexamples where the claim's status needs them).
-/

/-! ## Dictionary lemmas -/

/-- Reading back the key just written. -/
theorem dget_dinsert_self {β : Type} (k : String) (v : β) (d : List (String × β)) :
    dget (dinsert k v d) k = some v := by
  induction d with
  | nil => simp [dget, dinsert, List.find?]
  | cons e d ih =>
      by_cases h : e.1 = k
      · simp [dinsert, h, dget, List.find?]
      · simp only [dinsert, h, if_false]
        simpa [dget, List.find?, h] using ih

/-- Writing one key leaves every other key's value unchanged. -/
theorem dget_dinsert_other {β : Type} {k k' : String} (hne : k ≠ k') (v : β)
    (d : List (String × β)) : dget (dinsert k' v d) k = dget d k := by
  have hne' : k' ≠ k := Ne.symm hne
  induction d with
  | nil => simp [dget, dinsert, List.find?, hne']
  | cons e d ih =>
      by_cases h : e.1 = k'
      · subst h
        simp [dinsert, dget, List.find?, hne']
      · by_cases h2 : e.1 = k
        · simp only [dinsert, if_neg h]
          simp [dget, List.find?, h2]
        · simp only [dinsert, if_neg h]
          simpa [dget, List.find?, h2] using ih

/-! ## Parse lemmas for the concrete reference values -/

/-- `_parse_stat_value("39.9%")` hits the `%` branch. -/
theorem parse_399 : parseE (some "39.9%") = .ok (.vFloat (.fin (399/10))) := by
  rw [show (399/10 : ℚ) = mkDec 399 1 from by norm_num [mkDec]]
  rfl

/-- `_parse_stat_value("60.1%")` hits the `%` branch. -/
theorem parse_601 : parseE (some "60.1%") = .ok (.vFloat (.fin (601/10))) := by
  rw [show (601/10 : ℚ) = mkDec 601 1 from by norm_num [mkDec]]
  rfl

/-! ## W/D/L helper -/

/-- Full characterization of the `result` computation. -/
theorem resultOf_iff (ts os : PyVal) :
    (resultOf ts os = "W" ↔ ∃ a b, toIntR ts = some a ∧ toIntR os = some b ∧ b < a) ∧
    (resultOf ts os = "L" ↔ ∃ a b, toIntR ts = some a ∧ toIntR os = some b ∧ a < b) ∧
    (resultOf ts os = "D" ↔ ∀ a b, toIntR ts = some a → toIntR os = some b → a = b) := by
  cases hts : toIntR ts with
  | none => refine ⟨?_, ?_, ?_⟩ <;> simp [resultOf, hts]
  | some a =>
      cases hos : toIntR os with
      | none => refine ⟨?_, ?_, ?_⟩ <;> simp [resultOf, hts, hos]
      | some b =>
          rcases lt_trichotomy a b with h | h | h
          · have hna : ¬ b < a := by omega
            refine ⟨?_, ?_, ?_⟩ <;> simp [resultOf, hts, hos, hna, h] <;> omega
          · have hna : ¬ b < a := by omega
            have hnb : ¬ a < b := by omega
            refine ⟨?_, ?_, ?_⟩ <;> simp [resultOf, hts, hos, hna, hnb] <;> omega
          · have hb : b < a := h
            refine ⟨?_, ?_, ?_⟩ <;> simp [resultOf, hts, hos, hb] <;> omega

/-- A flat silver row of a Man Utd home win, used by the round-trip
scenario of the spec. -/
def muRow : List (String × PyVal) :=
  [("match_id", .int 101), ("season", .str "24/25"), ("matchweek", .int 5),
   ("date", .str "2024-09-01"), ("venue", .str "Old Trafford"),
   ("home_team", .str "Man Utd"), ("away_team", .str "Liverpool"),
   ("home_score", .int 3), ("away_score", .int 1)]

/-- The Gold record the extractor produces for `muRow` (the dynamic copy
re-keys `home_score` as the stat column `score`; `home_team` → `team`
collides with a base key and is skipped). -/
def muRec : TeamRecord :=
  { match_id := .int 101, season := .str "24/25", matchweek := .int 5,
    date := .str "2024-09-01", venue := .str "Old Trafford", is_home := true,
    team := .str "Man Utd", opponent := .str "Liverpool", result := "W",
    goals_scored := .int 3, goals_conceded := .int 1,
    stats := [("score", .int 3)] }

/-! ## Aggregation lemmas -/

/-- A row survives deduplication iff it is the LAST row carrying its
`match_id` (the first hit of a reverse search). -/
theorem dedupLast_find (r : AggRow) (l : List AggRow) (h : r ∈ dedupLast l) :
    l.reverse.find? (fun s => s.match_id = r.match_id) = some r := by
  induction l with
  | nil => simp [dedupLast] at h
  | cons x xs ih =>
      rw [List.reverse_cons, List.find?_append]
      by_cases hdup : xs.any (fun s => s.match_id = x.match_id)
      · rw [dedupLast, if_pos hdup] at h
        rw [ih h, Option.or_some]
      · rw [dedupLast, if_neg hdup] at h
        rcases List.mem_cons.mp h with rfl | hmem
        · have hnone : xs.reverse.find? (fun s => s.match_id = r.match_id) = none := by
            rw [List.find?_eq_none]
            intro y hy hp
            rw [Bool.not_eq_true] at hdup
            have : xs.any (fun s => s.match_id = r.match_id) = true :=
              List.any_eq_true.mpr ⟨y, List.mem_reverse.mp hy, hp⟩
            rw [this] at hdup
            cases hdup
          rw [hnone, Option.none_or]
          simp [List.find?]
        · rw [ih hmem, Option.or_some]

/-- Converse direction: the last row of each `match_id` does survive. -/
theorem find_dedupLast (r : AggRow) (l : List AggRow)
    (h : l.reverse.find? (fun s => s.match_id = r.match_id) = some r) :
    r ∈ dedupLast l := by
  induction l with
  | nil => simp at h
  | cons x xs ih =>
      rw [List.reverse_cons, List.find?_append] at h
      cases hf : xs.reverse.find? (fun s => s.match_id = r.match_id) with
      | some y =>
          rw [hf, Option.or_some] at h
          cases h
          have hmem := ih hf
          rw [dedupLast]
          by_cases hdup : xs.any (fun s => s.match_id = x.match_id)
          · rw [if_pos hdup]; exact hmem
          · rw [if_neg hdup]; exact List.mem_cons_of_mem _ hmem
      | none =>
          rw [hf, Option.none_or] at h
          have hx : r = x ∧ x.match_id = r.match_id := by
            by_cases hpx : x.match_id = r.match_id
            · simp [List.find?, hpx] at h
              exact ⟨h.symm, hpx⟩
            · simp [List.find?, hpx] at h
          rcases hx with ⟨rfl, _⟩
          have hdup : xs.any (fun s => s.match_id = r.match_id) = false := by
            rw [Bool.eq_false_iff]
            intro hany
            rcases List.any_eq_true.mp hany with ⟨y, hy, hp⟩
            rw [List.find?_eq_none] at hf
            exact absurd hp (by simpa using hf y (List.mem_reverse.mpr hy))
          rw [dedupLast, if_neg (by rw [hdup]; exact Bool.false_ne_true)]
          exact List.mem_cons_self _ _

/-- Membership in `dedupLast` is exactly "last occurrence of its id". -/
theorem mem_dedupLast (r : AggRow) (l : List AggRow) :
    r ∈ dedupLast l ↔ l.reverse.find? (fun s => s.match_id = r.match_id) = some r :=
  ⟨dedupLast_find r l, find_dedupLast r l⟩

/-- Surviving rows come from the input. -/
theorem mem_of_mem_dedupLast {r : AggRow} {l : List AggRow} (h : r ∈ dedupLast l) :
    r ∈ l := by
  induction l with
  | nil => simpa [dedupLast] using h
  | cons x xs ih =>
      rw [dedupLast] at h
      by_cases hdup : xs.any (fun s => s.match_id = x.match_id)
      · rw [if_pos hdup] at h
        exact List.mem_cons_of_mem _ (ih h)
      · rw [if_neg hdup] at h
        rcases List.mem_cons.mp h with rfl | hm
        · exact List.mem_cons_self _ _
        · exact List.mem_cons_of_mem _ (ih hm)

/-- After deduplication the ids are pairwise distinct. -/
theorem dedupLast_ids_nodup (l : List AggRow) :
    ((dedupLast l).map AggRow.match_id).Nodup := by
  induction l with
  | nil => simp [dedupLast]
  | cons x xs ih =>
      rw [dedupLast]
      by_cases hdup : xs.any (fun s => s.match_id = x.match_id)
      · rw [if_pos hdup]
        exact ih
      · rw [if_neg hdup]
        simp only [List.map_cons, List.nodup_cons]
        refine ⟨?_, ih⟩
        intro hmem
        rcases List.mem_map.mp hmem with ⟨y, hy, hid⟩
        rw [Bool.not_eq_true] at hdup
        have : xs.any (fun s => s.match_id = x.match_id) = true :=
          List.any_eq_true.mpr ⟨y, mem_of_mem_dedupLast hy, by simpa using hid⟩
        rw [this] at hdup
        cases hdup

/-- Deduplication is the identity on id-distinct inputs. -/
theorem dedupLast_eq_self {l : List AggRow} (h : (l.map AggRow.match_id).Nodup) :
    dedupLast l = l := by
  induction l with
  | nil => rfl
  | cons x xs ih =>
      simp only [List.map_cons, List.nodup_cons] at h
      have hno : ¬ xs.any (fun s => s.match_id = x.match_id) = true := by
        intro hany
        rcases List.any_eq_true.mp hany with ⟨y, hy, hid⟩
        exact h.1 (List.mem_map.mpr ⟨y, hy, by simpa using hid⟩)
      rw [dedupLast, if_neg hno, ih h.2]

/-- The `(season, matchweek)` comparison is transitive. -/
theorem lexLe_trans : ∀ a b c : AggRow, lexLe a b → lexLe b c → lexLe a c := by
  intro a b c hab hbc
  simp only [lexLe, Bool.or_eq_true, Bool.and_eq_true, decide_eq_true_eq] at *
  rcases hab with h1 | ⟨h1, h2⟩ <;> rcases hbc with h3 | ⟨h3, h4⟩
  · exact Or.inl (lt_trans h1 h3)
  · exact Or.inl (h3 ▸ h1)
  · exact Or.inl (h1 ▸ h3)
  · exact Or.inr ⟨h1.trans h3, le_trans h2 h4⟩

/-- The `(season, matchweek)` comparison is total. -/
theorem lexLe_total : ∀ a b : AggRow, lexLe a b || lexLe b a := by
  intro a b
  simp only [lexLe, Bool.or_eq_true, Bool.and_eq_true, decide_eq_true_eq]
  rcases lt_trichotomy a.season b.season with h | h | h
  · exact Or.inl (Or.inl h)
  · rcases Int.le_total a.matchweek b.matchweek with h2 | h2
    · exact Or.inl (Or.inr ⟨h, h2⟩)
    · exact Or.inr (Or.inr ⟨h.symm, h2⟩)
  · exact Or.inr (Or.inl h)

/-! ## Cleaner lemmas -/

/-- The value rewrite `stripVals` applies pointwise. -/
def stripPyVal : PyVal → PyVal
  | .str s => .str (pyStrip s)
  | v => v

theorem dget_stripVals (d : List (String × PyVal)) (k : String) :
    dget (stripVals d) k = (dget d k).map stripPyVal := by
  induction d with
  | nil => rfl
  | cons e d ih =>
      by_cases h : e.1 = k
      · simp [stripVals, dget, List.find?, h, stripPyVal]
      · simp only [stripVals, List.map_cons] at *
        simp [dget, List.find?, h] at *
        exact ih

theorem coerceScoreKey_other {k k' : String} (hne : k' ≠ k) {d d' : List (String × PyVal)}
    (h : coerceScoreKey k d = .ok d') : dget d' k' = dget d k' := by
  unfold coerceScoreKey at h
  cases hv : dget d k with
  | none => rw [hv] at h; cases h; rfl
  | some v =>
      rw [hv] at h
      cases v with
      | null => cases h; rfl
      | int n => cases h; rfl
      | str s =>
          simp only [coerceScoreV, Except.map] at h
          cases h
          exact dget_dinsert_other hne _ d
      | float f =>
          cases f with
          | fin q => simp only [coerceScoreV, Except.map] at h; cases h
                     exact dget_dinsert_other hne _ d
          | inf => simp [coerceScoreV, Except.map] at h
          | ninf => simp [coerceScoreV, Except.map] at h
          | nan => simp only [coerceScoreV, Except.map] at h; cases h
                   exact dget_dinsert_other hne _ d

theorem coerceScoreKey_self {k : String} {d d' : List (String × PyVal)}
    (h : coerceScoreKey k d = .ok d') :
    (dget d k = none → dget d' k = none) ∧
    (dget d k = some .null → dget d' k = some .null) ∧
    (∀ n, dget d k = some (.int n) → dget d' k = some (.int n)) ∧
    (∀ s, dget d k = some (.str s) → dget d' k = some (.int ((pyInt? s).getD 0))) ∧
    (∀ q, dget d k = some (.float (.fin q)) → dget d' k = some (.int (ratTrunc q))) ∧
    (dget d k = some (.float .nan) → dget d' k = some (.int 0)) := by
  unfold coerceScoreKey at h
  cases hv : dget d k with
  | none => rw [hv] at h; cases h; simp [hv]
  | some v =>
      rw [hv] at h
      cases v with
      | null => cases h; simp [hv]
      | int n => cases h; simp [hv]
      | str s =>
          simp only [coerceScoreV, Except.map] at h
          cases h
          refine ⟨by simp [hv], by simp [hv], by simp [hv], ?_, by simp [hv], by simp [hv]⟩
          intro s' hs'
          cases hs'
          exact dget_dinsert_self _ _ _
      | float f =>
          cases f with
          | fin q =>
              simp only [coerceScoreV, Except.map] at h
              cases h
              refine ⟨by simp [hv], by simp [hv], by simp [hv], by simp [hv], ?_, by simp [hv]⟩
              intro q' hq'
              cases hq'
              exact dget_dinsert_self _ _ _
          | inf => simp [coerceScoreV, Except.map] at h
          | ninf => simp [coerceScoreV, Except.map] at h
          | nan =>
              simp only [coerceScoreV, Except.map] at h
              cases h
              refine ⟨by simp [hv], by simp [hv], by simp [hv], by simp [hv], by simp [hv], ?_⟩
              intro hq'
              exact dget_dinsert_self _ _ _

theorem cleanFull_parts {d : RawDoc} {c : CleanedDoc} {post : RawDoc}
    (h : cleanFull d = .ok (c, post)) :
    c.match_id = d.match_id ∧ c.season = d.season ∧ c.matchweek = d.matchweek ∧
    c.detailed_statistics = d.detailed_statistics ∧
    c.lineups = d.lineups.map cleanLineups ∧
    (∃ stats, cleanStats (mergeStats d) = .ok stats ∧ c.statistics = stats) ∧
    post = { d with match_info := c.match_info, lineups := c.lineups } ∧
    (d.match_info = none → c.match_info = none) ∧
    (∀ info, d.match_info = some info →
      ∃ i', cleanInfoE info = .ok i' ∧ c.match_info = some i') := by
  cases hmi : d.match_info with
  | none =>
      cases hst : cleanStats (mergeStats d) with
      | error e => simp [cleanFull, hmi, hst, Except.bind, bind, pure, Except.pure] at h
      | ok stats =>
          simp only [cleanFull, hmi, hst, bind, Except.bind, pure, Except.pure,
            Except.ok.injEq, Prod.mk.injEq] at h
          obtain ⟨hc, hp⟩ := h
          subst hc
          subst hp
          refine ⟨rfl, rfl, rfl, rfl, rfl, ⟨stats, rfl, rfl⟩, rfl, fun _ => rfl, ?_⟩
          intro info hinfo
          cases hinfo
  | some i =>
      cases hci : cleanInfoE i with
      | error e => simp [cleanFull, hmi, hci, Except.map, Except.bind, bind, pure, Except.pure] at h
      | ok i' =>
          cases hst : cleanStats (mergeStats d) with
          | error e =>
              simp [cleanFull, hmi, hci, hst, Except.map, Except.bind, bind, pure, Except.pure] at h
          | ok stats =>
              simp only [cleanFull, hmi, hci, hst, Except.map, bind, Except.bind, pure,
                Except.pure, Except.ok.injEq, Prod.mk.injEq] at h
              obtain ⟨hc, hp⟩ := h
              subst hc
              subst hp
              refine ⟨rfl, rfl, rfl, rfl, rfl, ⟨stats, rfl, rfl⟩, rfl, ?_, ?_⟩
              · intro hnone
                cases hnone
              · intro info hinfo
                cases hinfo
                exact ⟨i', hci, rfl⟩

theorem cleanInfoE_get {info i' : List (String × PyVal)} (h : cleanInfoE info = .ok i')
    (k : String) (hk : k = "home_score" ∨ k = "away_score") :
    (dget info k = none → dget i' k = none) ∧
    (dget info k = some .null → dget i' k = some .null) ∧
    (∀ v, dget info k = some v → v ≠ .null → ∃ n, dget i' k = some (.int n)) ∧
    (∀ s, dget info k = some (.str s) → pyInt? (pyStrip s) = none →
      dget i' k = some (.int 0)) := by
  simp only [cleanInfoE, bind, Except.bind] at h
  cases h1 : coerceScoreKey "home_score" (stripVals info) with
  | error e => rw [h1] at h; cases h
  | ok d2 =>
      rw [h1] at h
      have hne : ("home_score" : String) ≠ "away_score" := by decide
      have hga : dget (stripVals info) k = (dget info k).map stripPyVal := dget_stripVals info k
      rcases hk with rfl | rfl
      · have hkeep : dget i' "home_score" = dget d2 "home_score" :=
          coerceScoreKey_other hne h
        have hself := coerceScoreKey_self h1
        rw [hkeep]
        refine ⟨?_, ?_, ?_, ?_⟩
        · intro h0
          exact hself.1 (by rw [hga, h0]; rfl)
        · intro h0
          exact hself.2.1 (by rw [hga, h0]; rfl)
        · intro v h0 hnn
          cases v with
          | null => exact absurd rfl hnn
          | int n => exact ⟨n, hself.2.2.1 n (by rw [hga, h0]; rfl)⟩
          | str s => exact ⟨_, hself.2.2.2.1 (pyStrip s) (by rw [hga, h0]; rfl)⟩
          | float f =>
              cases f with
              | fin q => exact ⟨_, hself.2.2.2.2.1 q (by rw [hga, h0]; rfl)⟩
              | nan => exact ⟨0, hself.2.2.2.2.2 (by rw [hga, h0]; rfl)⟩
              | inf =>
                  exfalso
                  unfold coerceScoreKey at h1
                  rw [hga, h0] at h1
                  simp [coerceScoreV, Except.map, stripPyVal] at h1
              | ninf =>
                  exfalso
                  unfold coerceScoreKey at h1
                  rw [hga, h0] at h1
                  simp [coerceScoreV, Except.map, stripPyVal] at h1
        · intro s h0 hfail
          have := hself.2.2.2.1 (pyStrip s) (by rw [hga, h0]; rfl)
          rwa [hfail] at this
      · have hkeep2 : dget d2 "away_score" = dget (stripVals info) "away_score" :=
          coerceScoreKey_other (Ne.symm hne) h1
        have hself := coerceScoreKey_self h
        rw [hkeep2, hga] at hself
        refine ⟨?_, ?_, ?_, ?_⟩
        · intro h0
          exact hself.1 (by rw [h0]; rfl)
        · intro h0
          exact hself.2.1 (by rw [h0]; rfl)
        · intro v h0 hnn
          cases v with
          | null => exact absurd rfl hnn
          | int n => exact ⟨n, hself.2.2.1 n (by rw [h0]; rfl)⟩
          | str s => exact ⟨_, hself.2.2.2.1 (pyStrip s) (by rw [h0]; rfl)⟩
          | float f =>
              cases f with
              | fin q => exact ⟨_, hself.2.2.2.2.1 q (by rw [h0]; rfl)⟩
              | nan => exact ⟨0, hself.2.2.2.2.2 (by rw [h0]; rfl)⟩
              | inf =>
                  exfalso
                  have h2 : dget d2 "away_score" = some (PyVal.float FloatV.inf) := by
                    rw [hkeep2, hga, h0]; rfl
                  have h3 : coerceScoreKey "away_score" d2 = Except.ok i' := h
                  unfold coerceScoreKey at h3
                  rw [h2] at h3
                  simp [coerceScoreV, Except.map] at h3
              | ninf =>
                  exfalso
                  have h2 : dget d2 "away_score" = some (PyVal.float FloatV.ninf) := by
                    rw [hkeep2, hga, h0]; rfl
                  have h3 : coerceScoreKey "away_score" d2 = Except.ok i' := h
                  unfold coerceScoreKey at h3
                  rw [h2] at h3
                  simp [coerceScoreV, Except.map] at h3
        · intro s h0 hfail
          have := hself.2.2.2.1 (pyStrip s) (by rw [h0]; rfl)
          rwa [hfail] at this

theorem cleanDoc_full {d : RawDoc} {c : CleanedDoc} (hc : cleanDoc d = .ok c) :
    ∃ post, cleanFull d = .ok (c, post) := by
  unfold cleanDoc at hc
  cases hf : cleanFull d with
  | error e => rw [hf] at hc; cases hc
  | ok p =>
      obtain ⟨c', post⟩ := p
      rw [hf] at hc
      simp only [Except.map, Except.ok.injEq] at hc
      subst hc
      exact ⟨post, rfl⟩

/-- C4 (amended): for both score keys, cleaning leaves a MISSING or
`None` score unchanged (the guard `val is not None` skips it — it is NOT
defaulted to 0), coerces every present non-`None` value to an integer, and
produces 0 exactly when `int()` fails on the (stripped) string value. -/
theorem clean_score_coercion (d : RawDoc) (info : List (String × PyVal)) (c : CleanedDoc)
    (hi : d.match_info = some info) (hc : cleanDoc d = .ok c)
    (k : String) (hk : k = "home_score" ∨ k = "away_score") :
    (dget info k = none → dget (c.match_info.getD []) k = none) ∧
    (dget info k = some .null → dget (c.match_info.getD []) k = some .null) ∧
    (∀ v, dget info k = some v → v ≠ .null →
      ∃ n, dget (c.match_info.getD []) k = some (.int n)) ∧
    (∀ s, dget info k = some (.str s) → pyInt? (pyStrip s) = none →
      dget (c.match_info.getD []) k = some (.int 0)) := by
  obtain ⟨post, hfull⟩ := cleanDoc_full hc
  obtain ⟨-, -, -, -, -, -, -, -, hsome⟩ := cleanFull_parts hfull
  obtain ⟨i', hok, hmi⟩ := hsome info hi
  rw [hmi]
  simpa using cleanInfoE_get hok k hk

def c4doc : RawDoc := { match_info := some [("home_score", PyVal.null)] }

/-- C4 counterexample: a document whose `home_score` is `None` cleans to a
document whose `home_score` is still `None`, not the integer 0 the claim
requires for missing values. -/
theorem clean_score_missing_cex :
    cleanDoc c4doc = .ok { match_info := some [("home_score", PyVal.null)] } ∧
    dget [("home_score", PyVal.null)] "home_score" ≠ some (PyVal.int 0) := by
  decide

def c4wDoc : RawDoc :=
  { match_info := some [("home_score", PyVal.str "3"), ("away_score", PyVal.int 1)] }

def c4wOut : CleanedDoc :=
  { match_info := some [("home_score", PyVal.int 3), ("away_score", PyVal.int 1)] }

/-- C4 witness: the amended theorem applied to a concrete document whose
`home_score` is the string `"3"`. -/
theorem clean_score_coercion_witness :
    ∃ n, dget (c4wOut.match_info.getD []) "home_score" = some (PyVal.int n) :=
  (clean_score_coercion c4wDoc
      [("home_score", PyVal.str "3"), ("away_score", PyVal.int 1)] c4wOut rfl (by decide)
      "home_score" (Or.inl rfl)).2.2.1 (PyVal.str "3") (by decide) (by decide)

/-- C9 (amended): `clean` builds a new top-level structure — the input's
scalar fields, `statistics` and `detailed_statistics` entries are
unchanged — but, through the shallow `data.copy()`, the nested
`match_info` and `lineups` the caller holds after the call are the CLEANED
ones, aliased with the result: the nested input is mutated in place. -/
theorem clean_shallow_effects (d : RawDoc) (c : CleanedDoc) (post : RawDoc)
    (h : cleanFull d = .ok (c, post)) :
    post.match_id = d.match_id ∧ post.season = d.season ∧
    post.matchweek = d.matchweek ∧ post.statistics = d.statistics ∧
    post.detailed_statistics = d.detailed_statistics ∧
    post.match_info = c.match_info ∧ post.lineups = c.lineups := by
  obtain ⟨-, -, -, -, -, -, hpost, -, -⟩ := cleanFull_parts h
  subst hpost
  exact ⟨rfl, rfl, rfl, rfl, rfl, rfl, rfl⟩

def c9doc : RawDoc := { match_info := some [("home_team", PyVal.str " X ")] }

def c9out : CleanedDoc := { match_info := some [("home_team", PyVal.str "X")] }

def c9post : RawDoc := { match_info := some [("home_team", PyVal.str "X")] }

/-- C9 counterexample: cleaning a document whose `match_info` holds the
padded string `" X "` leaves the caller's document with the TRIMMED string
`"X"` — the input's nested `match_info` is not unchanged. -/
theorem clean_mutates_input_cex :
    (cleanFull c9doc).map Prod.snd = .ok c9post ∧
    (cleanFull c9doc).map Prod.snd ≠ .ok c9doc := by
  decide

/-- C9 witness: the effects theorem applied to the concrete padded-string
document. -/
theorem clean_shallow_effects_witness :
    c9post.match_id = c9doc.match_id ∧ c9post.season = c9doc.season ∧
    c9post.matchweek = c9doc.matchweek ∧ c9post.statistics = c9doc.statistics ∧
    c9post.detailed_statistics = c9doc.detailed_statistics ∧
    c9post.match_info = c9out.match_info ∧ c9post.lineups = c9out.lineups :=
  clean_shallow_effects c9doc c9out c9post (by decide)

theorem fmt1_601 : fmt1 (fsub100 (.fin (mkDec 399 1))) = "60.1" := by
  have e1 : (100 : ℚ) - mkDec 399 1 = 601/10 := by norm_num [mkDec]
  show fmt1 (.fin ((100 : ℚ) - mkDec 399 1)) = "60.1"
  rw [e1]
  have hneg : ¬ ((601/10 : ℚ) < 0) := by norm_num
  rw [fmt1, if_neg hneg]
  have e2 : (10 : ℚ) * (601/10) = 601 := by norm_num
  rw [fmt1abs, e2]
  have e3 : rhe 601 = 601 := by
    rw [rhe]
    have hf : ⌊(601 : ℚ)⌋ = 601 := by norm_num
    rw [hf]
    norm_num
  rw [e3]
  rfl

theorem repair_concrete :
    repairCell "39.9%60.1%" (some "Possession") (some "39.9%") =
      ("Possession", some "60.1%", some "39.9%") := by
  rw [repairCell]
  rw [if_pos (by decide)]
  simp only []
  rw [if_pos (by decide), if_pos (by decide)]
  show ("Possession", some (fmt1 (fsub100 (.fin (mkDec 399 1))) ++ "%"), some "39.9%") =
    ("Possession", some "60.1%", some "39.9%")
  rw [fmt1_601]
  rfl

theorem possession_concrete :
    cleanStatEntry "39.9%60.1%" (some "Possession") (some "39.9%") =
      .ok ("Possession", .vFloat (.fin (100 - 399/10)), .vFloat (.fin (399/10))) := by
  rw [cleanStatEntry, repair_concrete]
  simp only [bind, Except.bind, parse_601, parse_399, pure, Except.pure]
  norm_num

theorem possession_rename_general (sname : String) (h a : Option String)
    (k : String) (hv av : StatValue)
    (hcond : ((pyStrip sname).data.contains '%' && (pyStrip sname).data.any Char.isDigit) = true)
    (hposs : h = some "Possession" ∨ a = some "Possession")
    (hok : cleanStatEntry sname h a = .ok (k, hv, av)) : k = "Possession" := by
  have hr : (repairCell sname h a).1 = "Possession" := by
    have hc' := hcond
    rw [Bool.and_eq_true] at hc'
    have hm : '%' ∈ (pyStrip sname).data := by simpa using hc'.1
    have hd : ∃ x ∈ (pyStrip sname).data, x.isDigit = true := by
      simpa [List.any_eq_true] using hc'.2
    simp only [repairCell]
    rw [if_pos]
    rcases hposs with h1 | h1 <;> simp [h1, hm, hd]
  cases hrep : repairCell sname h a with
  | mk n pr =>
      obtain ⟨h', a'⟩ := pr
      rw [hrep] at hr
      simp only at hr
      simp only [cleanStatEntry, hrep, bind, Except.bind, pure, Except.pure] at hok
      cases hv' : parseE h' with
      | error e => rw [hv'] at hok; cases hok
      | ok v1 =>
          rw [hv'] at hok
          cases ha' : parseE a' with
          | error e => rw [ha'] at hok; cases hok
          | ok v2 =>
              rw [ha'] at hok
              simp only [Except.ok.injEq, Prod.mk.injEq] at hok
              rw [← hok.1]
              exact hr

/-! ## Claim theorems -/

/-- C1: `StatValueParser.parse` matches the reference table —
`parse("43 (49%)") = ValueWithPercent(43.0, 49.0)`, `parse("108km") =
Number(108.0)`, `parse("67%") = Number(67.0)`, `parse("12") = Number(12)`
as an int, `parse("N/A") = Opaque("N/A")`, `parse(None) = Null` — but it is
NOT total: when the composite regex matches and a captured group is not a
valid float, the unguarded `float()` call raises `ValueError`
(`parse("1.2.3 (4%)")` below), contradicting the documented "never raises"
contract which every other branch implements with `try/except`. -/
theorem parse_reference_table_and_raise :
    parseE none = .ok .null ∧
    parseE (some "43 (49%)") = .ok (.vp (.fin 43) (.fin 49)) ∧
    parseE (some "108km") = .ok (.vFloat (.fin 108)) ∧
    parseE (some "67%") = .ok (.vFloat (.fin 67)) ∧
    parseE (some "12") = .ok (.vInt 12) ∧
    parseE (some "N/A") = .ok (.vStr "N/A") ∧
    parseE (some "1.2.3 (4%)") = .error "ValueError" := by
  refine ⟨by decide, ?_, ?_, ?_, by decide, by decide, by decide⟩
  · rw [show (43 : ℚ) = mkDec 43 0 from by norm_num [mkDec],
        show (49 : ℚ) = mkDec 49 0 from by norm_num [mkDec]]
    rfl
  · rw [show (108 : ℚ) = mkDec 108 0 from by norm_num [mkDec]]
    rfl
  · rw [show (67 : ℚ) = mkDec 67 0 from by norm_num [mkDec]]
    rfl

/-- C2: aggregation keeps, for each `match_id`, exactly the last occurrence
in input order (membership in the output is equivalent to being the first
hit of a reverse search for the id), sorts ascending by
`(season, matchweek)`, and is idempotent:
`aggregate (aggregate rows) = aggregate rows`. -/
theorem aggregate_dedup_sort_idempotent (rows : List AggRow) :
    (∀ r, r ∈ aggregate rows ↔
        rows.reverse.find? (fun s => s.match_id = r.match_id) = some r) ∧
    List.Pairwise (fun a b => lexLe a b = true) (aggregate rows) ∧
    aggregate (aggregate rows) = aggregate rows := by
  refine ⟨?_, ?_, ?_⟩
  · intro r
    rw [aggregate, List.mem_mergeSort]
    exact mem_dedupLast r rows
  · exact List.sorted_mergeSort lexLe_trans lexLe_total _
  · have h1 : ((aggregate rows).map AggRow.match_id).Nodup := by
      rw [aggregate]
      exact ((List.mergeSort_perm (dedupLast rows) lexLe).map AggRow.match_id).nodup_iff.mpr
        (dedupLast_ids_nodup rows)
    conv_lhs => rw [aggregate]
    rw [dedupLast_eq_self h1, aggregate]
    exact List.mergeSort_of_sorted (List.sorted_mergeSort lexLe_trans lexLe_total _)

/-- C3: a statistics entry whose (stripped) key contains `%` and a digit
and whose home or away raw cell is literally `"Possession"` is renamed to
key `"Possession"`; in the concrete scenario of the key `"39.9%60.1%"` with
`away = "39.9%"`, `home = "Possession"`, the repaired entry has key
`"Possession"`, the away value parsed from the raw away string
(`parse("39.9%") = 39.9`), and the home value `100 - 39.9`. -/
theorem possession_repair (sname : String) (h a : Option String)
    (k : String) (hv av : StatValue)
    (hcond : ((pyStrip sname).data.contains '%' && (pyStrip sname).data.any Char.isDigit) = true)
    (hposs : h = some "Possession" ∨ a = some "Possession")
    (hok : cleanStatEntry sname h a = .ok (k, hv, av)) :
    k = "Possession" ∧
    cleanStatEntry "39.9%60.1%" (some "Possession") (some "39.9%") =
      .ok ("Possession", .vFloat (.fin (100 - 399/10)), .vFloat (.fin (399/10))) ∧
    parseE (some "39.9%") = .ok (.vFloat (.fin (399/10))) :=
  ⟨possession_rename_general sname h a k hv av hcond hposs hok,
    possession_concrete, parse_399⟩

/-- C3 witness: the repair condition holds at the broken key
`"39.9%60.1%"` and the theorem applies there. -/
theorem possession_repair_witness :
    cleanStatEntry "39.9%60.1%" (some "Possession") (some "39.9%") =
      .ok ("Possession", .vFloat (.fin (100 - 399/10)), .vFloat (.fin (399/10))) :=
  (possession_repair "39.9%60.1%" (some "Possession") (some "39.9%") "Possession"
    (.vFloat (.fin (100 - 399/10))) (.vFloat (.fin (399/10)))
    (by decide) (Or.inl rfl) possession_concrete).2.1

/-- C5: the extractor returns `None` if and only if neither `home_team`
nor `away_team` of the flat row is a member of the alias list (exact,
case-sensitive string membership); whenever a side matches, a record is
produced. -/
theorem extract_none_iff (row : List (String × PyVal)) (aliases : List String) :
    extract row aliases = none ↔
      aliasMem (rowGet row "home_team") aliases = false ∧
        aliasMem (rowGet row "away_team") aliases = false := by
  unfold extract
  by_cases h1 : aliasMem (rowGet row "home_team") aliases
  · simp [h1]
  · by_cases h2 : aliasMem (rowGet row "away_team") aliases <;> simp_all

/-- C6: for every extracted record, `result` is `"W"` iff both scores
convert with `int()` and the team's is strictly greater, `"L"` iff strictly
less, and `"D"` iff they are equal or either conversion fails; and the
concrete round trip: the row with `home_team = "Man Utd"`,
`home_score = 3`, `away_score = 1` extracted with aliases `{"Man Utd"}`
yields `team = "Man Utd"`, `is_home = true`, `result = "W"`,
`goals_scored = 3`, `goals_conceded = 1`. -/
theorem extract_result_wdl (row : List (String × PyVal)) (aliases : List String)
    (rec : TeamRecord) (hx : extract row aliases = some rec) :
    ((rec.result = "W" ↔ ∃ a b, toIntR rec.goals_scored = some a ∧
        toIntR rec.goals_conceded = some b ∧ b < a) ∧
      (rec.result = "L" ↔ ∃ a b, toIntR rec.goals_scored = some a ∧
        toIntR rec.goals_conceded = some b ∧ a < b) ∧
      (rec.result = "D" ↔ ∀ a b, toIntR rec.goals_scored = some a →
        toIntR rec.goals_conceded = some b → a = b)) ∧
    extract muRow ["Man Utd"] = some muRec := by
  refine ⟨?_, by decide⟩
  have hr : rec.result = resultOf rec.goals_scored rec.goals_conceded := by
    unfold extract at hx
    by_cases h1 : aliasMem (rowGet row "home_team") aliases
    · simp only [h1, if_pos] at hx
      cases hx
      rfl
    · by_cases h2 : aliasMem (rowGet row "away_team") aliases
      · simp only [h1, h2, Bool.false_eq_true, if_false, if_pos] at hx
        cases hx
        rfl
      · simp [h1, h2] at hx
  rw [hr]
  exact resultOf_iff _ _

/-- C6 witness: the characterization applied to the concrete Man Utd home
win `muRow`. -/
theorem extract_result_wdl_witness :
    muRec.result = "W" ↔ ∃ a b, toIntR muRec.goals_scored = some a ∧
      toIntR muRec.goals_conceded = some b ∧ b < a :=
  (extract_result_wdl muRow ["Man Utd"] muRec (by decide)).1.1

/-- C10: when BOTH team names are in the alias list, the `elif` picks the
home side: the record has `is_home = true`, `team = home_team`,
`opponent = away_team`, home scores, and the home-prefixed statistics
copied; the away side is never chosen. -/
theorem extract_prefers_home (row : List (String × PyVal)) (aliases : List String)
    (hh : aliasMem (rowGet row "home_team") aliases = true)
    (ha : aliasMem (rowGet row "away_team") aliases = true) :
    ∃ rec, extract row aliases = some rec ∧ rec.is_home = true ∧
      rec.team = rowGet row "home_team" ∧ rec.opponent = rowGet row "away_team" ∧
      rec.goals_scored = rowGet row "home_score" ∧
      rec.goals_conceded = rowGet row "away_score" ∧
      rec.stats = collectStats "home_" row := by
  refine ⟨mkRec row true (rowGet row "home_team") (rowGet row "away_team")
      (rowGet row "home_score") (rowGet row "away_score"), ?_, rfl, rfl, rfl, rfl, rfl, rfl⟩
  unfold extract
  simp [hh]

/-- A derby row both of whose teams are aliases of the target. -/
def bothRow : List (String × PyVal) :=
  [("home_team", .str "Man Utd"), ("away_team", .str "Manchester United"),
   ("home_score", .int 2), ("away_score", .int 2), ("home_shots", .int 9)]

/-- C10 witness: both sides of `bothRow` are aliased and the home side is
selected. -/
theorem extract_prefers_home_witness :
    ∃ rec, extract bothRow ["Man Utd", "Manchester United"] = some rec ∧
      rec.is_home = true ∧
      rec.team = rowGet bothRow "home_team" ∧
      rec.opponent = rowGet bothRow "away_team" ∧
      rec.goals_scored = rowGet bothRow "home_score" ∧
      rec.goals_conceded = rowGet bothRow "away_score" ∧
      rec.stats = collectStats "home_" bothRow :=
  extract_prefers_home bothRow ["Man Utd", "Manchester United"] (by decide) (by decide)

/-- C8 (amended): for a string whose stripped form ends with `"km"`
(case-insensitively) and which the earlier composite-pattern branch does
not capture, parse returns `Number(float(...))` of the lower-cased string
with ALL occurrences of `"km"` removed — the code runs
`.lower().replace("km", "")`, not a strip of only the trailing suffix —
and on failure of that float parse it falls through to the `%` branch and
the branches after it (never raising). -/
theorem parse_km_branch (s : String)
    (hnp : (if (pyStrip s).data.contains '(' && (pyStrip s).data.contains ')' then
        parenMatch (pyStrip s) else none) = none)
    (hkm : "km".data.isSuffixOf (sLower (pyStrip s)).data = true) :
    (∀ f, pyFloat? ⟨removeKm (sLower (pyStrip s)).data⟩ = some f →
      parseE (some s) = .ok (.vFloat f)) ∧
    (pyFloat? ⟨removeKm (sLower (pyStrip s)).data⟩ = none →
      parseE (some s) = .ok (parseRest2 (pyStrip s))) := by
  constructor
  · intro f hf
    show parseStr s = _
    simp only [parseStr]
    rw [hnp]
    simp only [parseRest1, hkm, if_true]
    rw [hf]
  · intro hf
    show parseStr s = _
    simp only [parseStr]
    rw [hnp]
    simp only [parseRest1, hkm, if_true]
    rw [hf]

/-- C8 counterexample: `"1km2km"` ends with `"km"`; stripping only the
trailing suffix would leave `"1km2"`, whose float parse fails, so the
claim's reading falls through and ultimately yields the opaque string —
but the code removes BOTH `"km"` occurrences and returns `Number(12.0)`. -/
theorem parse_km_replace_all_cex :
    parseE (some "1km2km") = .ok (.vFloat (.fin 12)) ∧
    pyFloat? "1km2" = none ∧
    parseE (some "1km2km") ≠ .ok (.vStr "1km2km") := by
  refine ⟨?_, by decide, ?_⟩
  · rw [show (12 : ℚ) = mkDec 12 0 from by norm_num [mkDec]]
    rfl
  · decide

/-- C8 witness: the amended branch theorem applied to `"108km"`. -/
theorem parse_km_branch_witness :
    parseE (some "108km") = .ok (.vFloat (.fin (mkDec 108 0))) :=
  (parse_km_branch "108km" (by decide) (by decide)).1 (.fin (mkDec 108 0)) rfl

/-! ## Flattener lemmas -/

theorem str_ne_of_data {a b : String} (h : a.data ≠ b.data) : a ≠ b :=
  fun e => h (congrArg String.data e)

/-- Strings with the prefixes `home_` / `away_` never coincide. -/
theorem home_ne_away (σ τ : String) : ("home_" ++ σ : String) ≠ "away_" ++ τ := by
  apply str_ne_of_data
  intro h
  rw [String.data_append, String.data_append,
      show ("home_" : String).data = ['h', 'o', 'm', 'e', '_'] from rfl,
      show ("away_" : String).data = ['a', 'w', 'a', 'y', '_'] from rfl] at h
  simp only [List.cons_append, List.cons.injEq] at h
  exact absurd h.1 (by decide)

/-- No string equals itself extended by a nonempty suffix. -/
theorem ne_append_nonempty (a t : String) (ht : t.data ≠ []) : a ≠ a ++ t := by
  intro e
  have h := congrArg (fun x : String => x.data.length) e
  simp only [String.data_append, List.length_append] at h
  exact ht (List.length_eq_zero.mp (by omega))

/-- The `_pct` columns end in `'t'`. -/
theorem data_pct_last (σ : String) :
    (σ.data ++ ['_', 'p', 'c', 't']).getLast? = some 't' := by
  rw [List.getLast?_append]
  rfl

/-- A `_pct` column name is never one of the fixed meta keys. -/
theorem dget_eq_none_iff {β : Type} (d : List (String × β)) (k : String) :
    dget d k = none ↔ ∀ e ∈ d, e.1 ≠ k := by
  simp [dget, List.find?_eq_none]


/-- A string whose first character is not `'h'` is not a `home_`-prefixed
column extended by `_pct`. -/
theorem ne_home_pct_of_head {t : String} (σ : String) (hhead : t.data.head? ≠ some 'h') :
    t ≠ ("home_" ++ σ) ++ "_pct" := by
  intro e
  apply hhead
  rw [e, String.data_append, String.data_append,
      show ("home_" : String).data = ['h', 'o', 'm', 'e', '_'] from rfl]
  simp

/-- A string whose first character is not `'a'` is not an `away_`-prefixed
column extended by `_pct`. -/
theorem ne_away_pct_of_head {t : String} (σ : String) (hhead : t.data.head? ≠ some 'a') :
    t ≠ ("away_" ++ σ) ++ "_pct" := by
  intro e
  apply hhead
  rw [e, String.data_append, String.data_append,
      show ("away_" : String).data = ['a', 'w', 'a', 'y', '_'] from rfl]
  simp

theorem hometeam_ne_pct (σ : String) : ("home_team" : String) ≠ ("home_" ++ σ) ++ "_pct" := by
  intro e
  have h := congrArg String.data e
  rw [String.data_append, String.data_append,
      show ("home_" : String).data = ['h', 'o', 'm', 'e', '_'] from rfl,
      show ("_pct" : String).data = ['_', 'p', 'c', 't'] from rfl,
      show ("home_team" : String).data = ['h', 'o', 'm', 'e', '_', 't', 'e', 'a', 'm'] from rfl,
      List.append_assoc] at h
  simp only [List.cons_append, List.nil_append, List.cons.injEq, true_and] at h
  have hlast := data_pct_last σ
  rw [← h] at hlast
  exact absurd hlast (by decide)

theorem homescore_ne_pct (σ : String) : ("home_score" : String) ≠ ("home_" ++ σ) ++ "_pct" := by
  intro e
  have h := congrArg String.data e
  rw [String.data_append, String.data_append,
      show ("home_" : String).data = ['h', 'o', 'm', 'e', '_'] from rfl,
      show ("_pct" : String).data = ['_', 'p', 'c', 't'] from rfl,
      show ("home_score" : String).data = ['h', 'o', 'm', 'e', '_', 's', 'c', 'o', 'r', 'e'] from rfl,
      List.append_assoc] at h
  simp only [List.cons_append, List.nil_append, List.cons.injEq, true_and] at h
  have hlast := data_pct_last σ
  rw [← h] at hlast
  exact absurd hlast (by decide)

theorem awayteam_ne_pct (σ : String) : ("away_team" : String) ≠ ("away_" ++ σ) ++ "_pct" := by
  intro e
  have h := congrArg String.data e
  rw [String.data_append, String.data_append,
      show ("away_" : String).data = ['a', 'w', 'a', 'y', '_'] from rfl,
      show ("_pct" : String).data = ['_', 'p', 'c', 't'] from rfl,
      show ("away_team" : String).data = ['a', 'w', 'a', 'y', '_', 't', 'e', 'a', 'm'] from rfl,
      List.append_assoc] at h
  simp only [List.cons_append, List.nil_append, List.cons.injEq, true_and] at h
  have hlast := data_pct_last σ
  rw [← h] at hlast
  exact absurd hlast (by decide)

theorem awayscore_ne_pct (σ : String) : ("away_score" : String) ≠ ("away_" ++ σ) ++ "_pct" := by
  intro e
  have h := congrArg String.data e
  rw [String.data_append, String.data_append,
      show ("away_" : String).data = ['a', 'w', 'a', 'y', '_'] from rfl,
      show ("_pct" : String).data = ['_', 'p', 'c', 't'] from rfl,
      show ("away_score" : String).data = ['a', 'w', 'a', 'y', '_', 's', 'c', 'o', 'r', 'e'] from rfl,
      List.append_assoc] at h
  simp only [List.cons_append, List.nil_append, List.cons.injEq, true_and] at h
  have hlast := data_pct_last σ
  rw [← h] at hlast
  exact absurd hlast (by decide)

/-- No `home_<slug>_pct` column occurs among the fixed meta columns. -/
theorem dget_baseRow_home_pct (c : CleanedDoc) (σ : String) :
    dget (baseRow c) (("home_" ++ σ) ++ "_pct") = none := by
  rw [dget_eq_none_iff]
  intro e he
  simp only [baseRow, List.mem_cons, List.not_mem_nil, or_false] at he
  rcases he with rfl | rfl | rfl | rfl | rfl | rfl | rfl | rfl | rfl | rfl
  · show ("match_id" : String) ≠ ("home_" ++ σ) ++ "_pct"
    exact ne_home_pct_of_head σ (by decide)
  · show ("season" : String) ≠ ("home_" ++ σ) ++ "_pct"
    exact ne_home_pct_of_head σ (by decide)
  · show ("matchweek" : String) ≠ ("home_" ++ σ) ++ "_pct"
    exact ne_home_pct_of_head σ (by decide)
  · show ("date" : String) ≠ ("home_" ++ σ) ++ "_pct"
    exact ne_home_pct_of_head σ (by decide)
  · show ("venue" : String) ≠ ("home_" ++ σ) ++ "_pct"
    exact ne_home_pct_of_head σ (by decide)
  · show ("referee" : String) ≠ ("home_" ++ σ) ++ "_pct"
    exact ne_home_pct_of_head σ (by decide)
  · show ("home_team" : String) ≠ ("home_" ++ σ) ++ "_pct"
    exact hometeam_ne_pct σ
  · show ("away_team" : String) ≠ ("home_" ++ σ) ++ "_pct"
    exact ne_home_pct_of_head σ (by decide)
  · show ("home_score" : String) ≠ ("home_" ++ σ) ++ "_pct"
    exact homescore_ne_pct σ
  · show ("away_score" : String) ≠ ("home_" ++ σ) ++ "_pct"
    exact ne_home_pct_of_head σ (by decide)

/-- No `away_<slug>_pct` column occurs among the fixed meta columns. -/
theorem dget_baseRow_away_pct (c : CleanedDoc) (σ : String) :
    dget (baseRow c) (("away_" ++ σ) ++ "_pct") = none := by
  rw [dget_eq_none_iff]
  intro e he
  simp only [baseRow, List.mem_cons, List.not_mem_nil, or_false] at he
  rcases he with rfl | rfl | rfl | rfl | rfl | rfl | rfl | rfl | rfl | rfl
  · show ("match_id" : String) ≠ ("away_" ++ σ) ++ "_pct"
    exact ne_away_pct_of_head σ (by decide)
  · show ("season" : String) ≠ ("away_" ++ σ) ++ "_pct"
    exact ne_away_pct_of_head σ (by decide)
  · show ("matchweek" : String) ≠ ("away_" ++ σ) ++ "_pct"
    exact ne_away_pct_of_head σ (by decide)
  · show ("date" : String) ≠ ("away_" ++ σ) ++ "_pct"
    exact ne_away_pct_of_head σ (by decide)
  · show ("venue" : String) ≠ ("away_" ++ σ) ++ "_pct"
    exact ne_away_pct_of_head σ (by decide)
  · show ("referee" : String) ≠ ("away_" ++ σ) ++ "_pct"
    exact ne_away_pct_of_head σ (by decide)
  · show ("home_team" : String) ≠ ("away_" ++ σ) ++ "_pct"
    exact ne_away_pct_of_head σ (by decide)
  · show ("away_team" : String) ≠ ("away_" ++ σ) ++ "_pct"
    exact awayteam_ne_pct σ
  · show ("home_score" : String) ≠ ("away_" ++ σ) ++ "_pct"
    exact ne_away_pct_of_head σ (by decide)
  · show ("away_score" : String) ≠ ("away_" ++ σ) ++ "_pct"
    exact awayscore_ne_pct σ


/-- Columns other than the two a side can emit pass through `emitSide`. -/
theorem emitSide_get_other (pre cn : String) (v : StatValue)
    (d : List (String × PyVal)) (k : String)
    (h1 : k ≠ pre ++ cn) (h2 : k ≠ (pre ++ cn) ++ "_pct") :
    dget (emitSide pre cn v d) k = dget d k := by
  cases v with
  | vp x p =>
      simp only [emitSide]
      rw [dget_dinsert_other h2, dget_dinsert_other h1]
  | null => simp only [emitSide]; rw [dget_dinsert_other h1]
  | vInt n => simp only [emitSide]; rw [dget_dinsert_other h1]
  | vFloat f => simp only [emitSide]; rw [dget_dinsert_other h1]
  | vStr s => simp only [emitSide]; rw [dget_dinsert_other h1]

/-- The main column of a side always holds `mainPy` of the parsed value. -/
theorem emitSide_get_main (pre cn : String) (v : StatValue) (d : List (String × PyVal)) :
    dget (emitSide pre cn v d) (pre ++ cn) = some (mainPy v) := by
  cases v with
  | vp x p =>
      simp only [emitSide, mainPy]
      rw [dget_dinsert_other (ne_append_nonempty (pre ++ cn) "_pct" (by decide))]
      exact dget_dinsert_self _ _ _
  | null => exact dget_dinsert_self _ _ _
  | vInt n => exact dget_dinsert_self _ _ _
  | vFloat f => exact dget_dinsert_self _ _ _
  | vStr s => exact dget_dinsert_self _ _ _

/-- A value+percent pair emits the percent into the `_pct` column. -/
theorem emitSide_get_pct_vp (pre cn : String) (x p : FloatV) (d : List (String × PyVal)) :
    dget (emitSide pre cn (.vp x p) d) ((pre ++ cn) ++ "_pct") = some (.float p) :=
  dget_dinsert_self _ _ _

/-- A non-pair value emits no `_pct` column. -/
theorem emitSide_get_pct_nonvp (pre cn : String) (v : StatValue)
    (d : List (String × PyVal)) (hnv : ∀ x p, v ≠ .vp x p) :
    dget (emitSide pre cn v d) ((pre ++ cn) ++ "_pct") =
      dget d ((pre ++ cn) ++ "_pct") := by
  have hne : ((pre ++ cn) ++ "_pct" : String) ≠ pre ++ cn :=
    Ne.symm (ne_append_nonempty (pre ++ cn) "_pct" (by decide))
  cases v with
  | vp x p => exact absurd rfl (hnv x p)
  | null => simp only [emitSide]; rw [dget_dinsert_other hne]
  | vInt n => simp only [emitSide]; rw [dget_dinsert_other hne]
  | vFloat f => simp only [emitSide]; rw [dget_dinsert_other hne]
  | vStr s => simp only [emitSide]; rw [dget_dinsert_other hne]

/-- C7: for a cleaned document with one statistic, flatten emits columns
named `<side>_<slug>` (slug = name lower-cased, spaces→underscores,
parentheses and `%` stripped, underscores trimmed): a value+percent pair
produces exactly the two columns `<side>_<slug>` (value) and
`<side>_<slug>_pct` (percent); every other parsed value produces exactly
one column holding it unchanged and NO `_pct` column. -/
theorem flatten_stat_columns (c : CleanedDoc) (name : String) (hv av : StatValue)
    (hs : c.statistics = [(name, hv, av)]) :
    (∀ x p, hv = .vp x p →
      dget (flatten c) ("home_" ++ slugName name) = some (.float x) ∧
      dget (flatten c) (("home_" ++ slugName name) ++ "_pct") = some (.float p)) ∧
    ((∀ x p, hv ≠ .vp x p) →
      dget (flatten c) ("home_" ++ slugName name) = some (mainPy hv) ∧
      dget (flatten c) (("home_" ++ slugName name) ++ "_pct") = none) ∧
    (∀ x p, av = .vp x p →
      dget (flatten c) ("away_" ++ slugName name) = some (.float x) ∧
      dget (flatten c) (("away_" ++ slugName name) ++ "_pct") = some (.float p)) ∧
    ((∀ x p, av ≠ .vp x p) →
      dget (flatten c) ("away_" ++ slugName name) = some (mainPy av) ∧
      dget (flatten c) (("away_" ++ slugName name) ++ "_pct") = none) ∧
    slugName "Tackles Won (%)" = "tackles_won" ∧
    slugName "Big Chances Created" = "big_chances_created" := by
  set σ := slugName name with hσ
  have hf : flatten c = emitSide "away_" σ av (emitSide "home_" σ hv (baseRow c)) := by
    rw [flatten, hs]
    rfl
  have hma : ("home_" ++ σ : String) ≠ "away_" ++ σ := home_ne_away σ σ
  have hmap : ("home_" ++ σ : String) ≠ ("away_" ++ σ) ++ "_pct" := by
    rw [String.append_assoc]
    exact home_ne_away σ (σ ++ "_pct")
  have hpa : (("home_" ++ σ) ++ "_pct" : String) ≠ "away_" ++ σ := by
    rw [String.append_assoc]
    exact home_ne_away (σ ++ "_pct") σ
  have hpap : (("home_" ++ σ) ++ "_pct" : String) ≠ ("away_" ++ σ) ++ "_pct" := by
    rw [String.append_assoc, String.append_assoc]
    exact home_ne_away (σ ++ "_pct") (σ ++ "_pct")
  refine ⟨?_, ?_, ?_, ?_, by decide, by decide⟩
  · rintro x p rfl
    constructor
    · rw [hf, emitSide_get_other _ _ _ _ _ hma hmap, emitSide_get_main]
      rfl
    · rw [hf, emitSide_get_other _ _ _ _ _ hpa hpap, emitSide_get_pct_vp]
  · intro hnv
    constructor
    · rw [hf, emitSide_get_other _ _ _ _ _ hma hmap, emitSide_get_main]
    · rw [hf, emitSide_get_other _ _ _ _ _ hpa hpap, emitSide_get_pct_nonvp _ _ _ _ hnv]
      exact dget_baseRow_home_pct c σ
  · rintro x p rfl
    exact ⟨by rw [hf, emitSide_get_main]; rfl, by rw [hf, emitSide_get_pct_vp]⟩
  · intro hnv
    constructor
    · rw [hf, emitSide_get_main]
    · rw [hf, emitSide_get_pct_nonvp _ _ _ _ hnv,
          emitSide_get_other _ _ _ _ _ (Ne.symm hmap) (Ne.symm hpap)]
      exact dget_baseRow_away_pct c σ

/-- A cleaned document with a single value+percent statistic. -/
def c7wDoc : CleanedDoc :=
  { statistics := [("Total Passes", .vp (.fin 500) (.fin 88), .vInt 300)] }

/-- C7 witness: the column law applied to a concrete passes statistic. -/
theorem flatten_stat_columns_witness :
    dget (flatten c7wDoc) ("home_" ++ slugName "Total Passes") =
      some (.float (.fin 500)) ∧
    dget (flatten c7wDoc) (("home_" ++ slugName "Total Passes") ++ "_pct") =
      some (.float (.fin 88)) :=
  (flatten_stat_columns c7wDoc "Total Passes" (.vp (.fin 500) (.fin 88)) (.vInt 300)
    rfl).1 (.fin 500) (.fin 88) rfl

end ETL
